import Mathlib

/-!
Shallow embedding of the calp calendar program: the month-range
specification language of src/months_parser.rs, and the day-grid
builder, holiday index and day-cell styling of src/lib.rs.
Machine integers are modelled as `Nat` with explicit bounds where
overflow matters; fallible operations return `Option` or `Except`.
-/

namespace Calp

instance {ε α : Type} [DecidableEq ε] [DecidableEq α] :
    DecidableEq (Except ε α) := fun a b =>
  match a, b with
  | .error x, .error y =>
    if h : x = y then .isTrue (by rw [h])
    else .isFalse (by intro c; cases c; exact h rfl)
  | .ok x, .ok y =>
    if h : x = y then .isTrue (by rw [h])
    else .isFalse (by intro c; cases c; exact h rfl)
  | .error _, .ok _ => .isFalse (by intro c; cases c)
  | .ok _, .error _ => .isFalse (by intro c; cases c)

/-- The value denoted by a list of decimal digit characters, most
significant first, as Rust's `str::parse` reads them. -/
def digitsToNat (cs : List Char) : Nat :=
  cs.foldl (fun a c => 10 * a + (c.toNat - 48)) 0

/-- Rust's `str::parse::<usize>` applied to a nonempty all-digit
string: it succeeds exactly when the value fits in a 64-bit `usize`,
and fails with an overflow error otherwise. -/
def parseUsize (cs : List Char) : Option Nat :=
  if digitsToNat cs < 2 ^ 64 then some (digitsToNat cs) else none

/-- Rust's `split(",")` on a string, as a function on character lists:
the list of fields between commas.  It always returns at least one
(possibly empty) field. -/
def splitOnComma : List Char → List (List Char)
  | [] => [[]]
  | c :: rest =>
    let r := splitOnComma rest
    if c = ',' then [] :: r
    else
      match r with
      | [] => [[c]]
      | p :: ps => (c :: p) :: ps

/-- The anchored regex match of `parse_range` in src/months_parser.rs,
pattern `(\d+)(-(\d+)){0,1}`: capture group 1 (the leading digits) and
the optional capture group 3 (the digits after a single dash); `none`
when the whole segment does not match. -/
def segCaptures (cs : List Char) : Option (List Char × Option (List Char)) :=
  let d1 := cs.takeWhile Char.isDigit
  let rest := cs.dropWhile Char.isDigit
  if d1.isEmpty then none
  else
    match rest with
    | [] => some (d1, none)
    | '-' :: rest2 =>
      let d2 := rest2.takeWhile Char.isDigit
      let rest3 := rest2.dropWhile Char.isDigit
      if d2.isEmpty || !rest3.isEmpty then none
      else some (d1, some d2)
    | _ => none

/-- `parse_range` in src/months_parser.rs: match the segment against
the regex, then parse each captured digit group as `usize`; any
failure (regex mismatch or integer overflow) propagates as an error,
which the caller folds into its "illegal list value" message. -/
def parse_range (cs : List Char) : Option (Option Nat × Option Nat) :=
  match segCaptures cs with
  | none => none
  | some (d1, od2) =>
    match parseUsize d1 with
    | none => none
    | some s =>
      match od2 with
      | none => some (some s, none)
      | some d2 =>
        match parseUsize d2 with
        | none => none
        | some e => some (some s, some e)

/-- The per-token closure of `parse_months` (src/months_parser.rs
lines 14-44): format check first, then the start month's bounds, then
the end month's bounds, then the order check; a valid token becomes
the half-open zero-based range `(s-1, e)`. -/
def parse_segment (ele : List Char) : Except String (Nat × Nat) :=
  match parse_range ele with
  | none => .error ("illegal list value: \"" ++ String.mk ele ++ "\"")
  | some (so, eo) =>
    match so with
    | some v =>
      if 1 ≤ v ∧ v ≤ 12 then
        match eo with
        | some e =>
          if ¬(1 ≤ e ∧ e ≤ 12) then
            .error ("invalid month: \"" ++ toString e ++ "\"")
          else if v ≥ e then
            .error ("First month in range (" ++ toString v ++
              ") must be lower than second month (" ++ toString e ++ ")")
          else .ok (v - 1, e)
        | none => .ok (v - 1, v)
      else .error ("invalid month: \"" ++ toString v ++ "\"")
    | none => .error ("invalid month: \"" ++ String.mk ele ++ "\"")

/-- The `collect::<Result<Vec<_>, _>>()` step of `parse_months`:
validate every token, short-circuiting at the first error. -/
def parse_segments : List (List Char) → Except String (List (Nat × Nat))
  | [] => .ok []
  | x :: xs =>
    match parse_segment x with
    | .error e => .error e
    | .ok r =>
      match parse_segments xs with
      | .error e => .error e
      | .ok rs => .ok (r :: rs)

/-- The comparator of `sort_month_range_list`: by range start, ties
broken by range end. -/
def rangeLE (a b : Nat × Nat) : Prop :=
  a.1 < b.1 ∨ (a.1 = b.1 ∧ a.2 ≤ b.2)

instance : DecidableRel rangeLE := fun a b => by
  unfold rangeLE; infer_instance

/-- `sort_month_range_list` in src/months_parser.rs: a stable sort of
the ranges by `(start, end)`.  `rangeLE` is a total antisymmetric
order, so every sort agrees with Rust's `sort_by` here; insertion
sort is used because it evaluates by kernel reduction. -/
def sort_month_range_list (l : List (Nat × Nat)) : List (Nat × Nat) :=
  l.insertionSort rangeLE

/-- The canonical month sequence, `m12` in `parse_months`. -/
def m12 : List Nat := [1, 2, 3, 4, 5, 6, 7, 8, 9, 10, 11, 12]

/-- `extract_month` in src/months_parser.rs: clip a range against the
running offset and the array length, returning the new offset `e`
together with the slice `arr[s..e]` (empty when `s > e`). -/
def extract_month (arr : List Nat) (offset : Nat) (r : Nat × Nat) :
    Nat × List Nat :=
  let s := max offset r.1
  let e := min arr.length r.2
  if s > e then (e, []) else (e, (arr.drop s).take (e - s))

/-- The map-with-running-offset-then-flatten pipeline of
`parse_months` (src/months_parser.rs lines 49-58): scan the sorted
ranges left to right, threading the offset returned by
`extract_month`. -/
def extract_all : Nat → List (Nat × Nat) → List Nat
  | _, [] => []
  | offset, r :: rs =>
    let p := extract_month m12 offset r
    p.2 ++ extract_all p.1 rs

/-- `parse_months` in src/months_parser.rs: split the input on commas,
validate every token, sort the resulting zero-based half-open ranges,
and flatten them against `m12`. -/
def parse_months (value : String) : Except String (List Nat) :=
  match parse_segments (splitOnComma value.toList) with
  | .error e => .error e
  | .ok ranges => .ok (extract_all 0 (sort_month_range_list ranges))

/-- A calendar date, the visible fields of chrono's `NaiveDate`:
year as a signed integer, month `1..=12`, day `1..=31`. -/
structure Date where
  year : Int
  month : Nat
  day : Nat
deriving DecidableEq

/-- Proleptic Gregorian leap-year rule, as chrono implements it. -/
def isLeapYear (y : Int) : Bool :=
  y % 4 = 0 && (y % 100 ≠ 0 || y % 400 = 0)

/-- Number of days in a Gregorian month (month `1..=12`; other inputs
return the January value, never reached by the program). -/
def daysInMonth (y : Int) (m : Nat) : Nat :=
  match m with
  | 2 => if isLeapYear y then 29 else 28
  | 4 => 30
  | 6 => 30
  | 9 => 30
  | 11 => 30
  | _ => 31

/-- chrono's `NaiveDate::pred_opt` on a valid date: the previous
calendar day. -/
def predDate (d : Date) : Date :=
  if d.day > 1 then ⟨d.year, d.month, d.day - 1⟩
  else if d.month > 1 then
    ⟨d.year, d.month - 1, daysInMonth d.year (d.month - 1)⟩
  else ⟨d.year - 1, 12, 31⟩

/-- `last_day_in_month` in src/lib.rs: the day before the first of the
following month (December wraps to January of the next year). -/
def last_day_in_month (year : Int) (month : Nat) : Date :=
  let p := if month = 12 then (year + 1, 1) else (year, month + 1)
  predDate ⟨p.1, p.2, 1⟩

/-- Day count of a Gregorian date from the era origin (years `≥ 1`,
the range the program's year validation `1..=9999` admits), in the
style of the standard civil-from-days algorithm. -/
def dayNumber (y m d : Nat) : Nat :=
  let y2 := if m ≤ 2 then y - 1 else y
  let era := y2 / 400
  let yoe := y2 % 400
  let mp := (m + 9) % 12
  let doy := (153 * mp + 2) / 5 + d - 1
  let doe := yoe * 365 + yoe / 4 - yoe / 100 + doy
  era * 146097 + doe

/-- chrono's `weekday().num_days_from_sunday()` of a date: `0` for
Sunday through `6` for Saturday.  Faithful for years `≥ 1`. -/
def weekdaySunday0 (year : Int) (month day : Nat) : Nat :=
  (dayNumber year.toNat month day + 3) % 7

/-- Rust's `Vec::splice(s..e, repl)`: replace the elements at indices
`[s, e)` with `repl`. -/
def splice (l : List Nat) (s e : Nat) (repl : List Nat) : List Nat :=
  l.take s ++ repl ++ l.drop e

/-- `preformat_days` in src/lib.rs: a 42-cell zero-filled grid into
which `1..=last_day` is spliced starting at the weekday index of the
first of the month. -/
def preformat_days (year : Int) (month : Nat) : List Nat :=
  let last := last_day_in_month year month
  let first_weekday := weekdaySunday0 year month 1
  splice (List.replicate (7 * 6) 0) first_weekday
    (first_weekday + last.day) (List.range' 1 last.day)

/-- `HolidayInfo` in src/lib.rs: the nested
`HashMap<i32, HashMap<u32, u32>>` modelled as a total function from
year and month to the stored bitmask, `0` for absent keys (exactly
what `get ... unwrap_or(&0)` observes). -/
structure HolidayInfo where
  info : Int → Nat → Nat

/-- `HolidayInfo::new`: no holidays recorded. -/
def HolidayInfo.new : HolidayInfo := ⟨fun _ _ => 0⟩

/-- `HolidayInfo::is_holiday`: test bit `day - 1` of the mask stored
for `(year, month)`. -/
def HolidayInfo.is_holiday (h : HolidayInfo) (year : Int) (month day : Nat) :
    Bool :=
  let b := h.info year month
  b &&& (1 <<< (day - 1)) != 0

/-- `HolidayInfo::add`: set bit `day - 1` in the mask stored for the
date's `(year, month)`. -/
def HolidayInfo.add (h : HolidayInfo) (date : Date) : HolidayInfo :=
  ⟨fun y m =>
    if y = date.year ∧ m = date.month then
      h.info y m ||| (1 <<< (date.day - 1))
    else h.info y m⟩

/-- The build pass at the end of `load_holiday_file`: fold `add` over
the parsed dates, starting from the empty index. -/
def build_holidays (dates : List Date) : HolidayInfo :=
  dates.foldl .add .new

/-- Rust's `char::is_whitespace`, the Unicode White_Space set, which
chrono trims before each numeric field it parses. -/
def rustIsWhitespace (c : Char) : Bool :=
  ([0x9, 0xA, 0xB, 0xC, 0xD, 0x20, 0x85, 0xA0, 0x1680,
    0x2000, 0x2001, 0x2002, 0x2003, 0x2004, 0x2005, 0x2006, 0x2007,
    0x2008, 0x2009, 0x200A, 0x2028, 0x2029, 0x202F, 0x205F,
    0x3000] : List Nat).contains c.toNat

/-- chrono's `scan::number(s, 1, max)`: consume greedily at most
`maxDigits` leading decimal digits, at least one, and return their
value together with the unconsumed rest. -/
def scanNumber (maxDigits : Nat) (cs : List Char) : Option (Nat × List Char) :=
  let ds := (cs.take maxDigits).takeWhile Char.isDigit
  if ds.isEmpty then none
  else some (digitsToNat ds, cs.drop ds.length)

/-- chrono's `NaiveDate::parse_from_str(line, "%Y/%m/%d")` as
src/lib.rs calls it.  Leading whitespace is trimmed before each
numeric field; `%Y` takes an optional `+`/`-` sign followed by an
unbounded digit run, or at most four digits when unsigned; `%m` and
`%d` take at most two digits each and no sign; the two slashes are
literal; the whole input must be consumed; and the fields must
resolve to a real proleptic Gregorian date, the month in `1..=12`,
the day within the (leap-aware) month length, and the year within
chrono's representable range `-262144..=262143` (a signed year too
large for an `i64` already fails the scan, which the range test
subsumes: either way the line yields no date). -/
def date_parse_from_str (s : String) : Option Date :=
  let cs := s.toList.dropWhile rustIsWhitespace
  let yearPart : Option (Int × List Char) :=
    match cs with
    | '-' :: t =>
      let ds := t.takeWhile Char.isDigit
      if ds.isEmpty then none
      else some (-(digitsToNat ds : Int), t.drop ds.length)
    | '+' :: t =>
      let ds := t.takeWhile Char.isDigit
      if ds.isEmpty then none
      else some ((digitsToNat ds : Int), t.drop ds.length)
    | _ =>
      match scanNumber 4 cs with
      | none => none
      | some (v, rest) => some ((v : Int), rest)
  match yearPart with
  | none => none
  | some (y, r1) =>
    match r1 with
    | '/' :: r2 =>
      match scanNumber 2 (r2.dropWhile rustIsWhitespace) with
      | none => none
      | some (m, r3) =>
        match r3 with
        | '/' :: r4 =>
          match scanNumber 2 (r4.dropWhile rustIsWhitespace) with
          | none => none
          | some (d, r5) =>
            if r5.isEmpty ∧ 1 ≤ m ∧ m ≤ 12 ∧ 1 ≤ d ∧ d ≤ daysInMonth y m ∧
                -262144 ≤ y ∧ y ≤ 262143
            then some ⟨y, m, d⟩ else none
        | _ => none
    | _ => none

/-- `line.split(",").next()` in `load_holiday_file`: the text before
the first comma, which is the whole line when it has no comma. -/
def beforeFirstComma (s : String) : String :=
  match splitOnComma s.toList with
  | l :: _ => String.mk l
  | [] => s

/-- The line-processing pipeline of `load_holiday_file`
(src/lib.rs lines 180-191): for each line, parse the text before the
first comma as a `YYYY/MM/DD` date; lines whose text does not parse
are dropped, and no line can fail the whole pass. -/
def holiday_lines (lines : List String) : List Date :=
  lines.filterMap fun line => date_parse_from_str (beforeFirstComma line)

/-- The two day-cell colours the styling closure of `format_days` can
choose, plus the unstyled default. -/
inductive CellColor where
  | red
  | blue
  | plain
deriving DecidableEq

/-- A day cell's style: the chosen colour and whether the
reverse-video emphasis for today is applied on top of it. -/
structure CellStyle where
  color : CellColor
  reversed : Bool
deriving DecidableEq

/-- The styling closure applied to every non-zero day cell in
`format_days` (src/lib.rs lines 325-336): red for column 0 or a
holiday, else blue for column 6, else plain; then reverse video when
the cell is today.  `i` is the column index within the week and `d`
the day number. -/
def cell_style (year : Int) (month : Nat) (today : Date)
    (h : HolidayInfo) (i : Nat) (d : Nat) : CellStyle :=
  let base :=
    if i = 0 || h.is_holiday year month d then CellColor.red
    else if i = 6 then CellColor.blue
    else CellColor.plain
  let is_today :=
    year == today.year && month == today.month && d == today.day
  ⟨base, is_today⟩

/-- The command-line options `run` inspects when choosing what to
display: the validated `-m` month list, the positional year and the
`-y` whole-year flag. -/
structure Config where
  months : Option (List Nat)
  year : Option Int
  cur_year : Bool

/-- The year/month selection logic of `run` (src/lib.rs lines
133-140), with today's date passed in place of `Local::now`: the
displayed year and the list of displayed months. -/
def run_selection (config : Config) (todayYear : Int) (todayMonth : Nat) :
    Int × List Nat :=
  let show_whole_year :=
    config.cur_year || (config.year.isSome && config.months.isNone)
  let year := config.year.getD todayYear
  let months :=
    if show_whole_year then [1, 2, 3, 4, 5, 6, 7, 8, 9, 10, 11, 12]
    else config.months.getD [todayMonth]
  (year, months)

example : parse_months "1-5,3-4" = .ok [1, 2, 3, 4, 5] := by decide
example : parse_months "1-6,2-3,2-5" = .ok [1, 2, 3, 4, 5, 6, 4, 5] := by decide
example : parse_months "5,1-3" = .ok [1, 2, 3, 5] := by decide
example : parse_months "0" = .error "invalid month: \"0\"" := by decide
example : parse_months "abc" = .error "illegal list value: \"abc\"" := by decide

-- sanity checks against the repository's test_preformat_days
example : preformat_days 2024 12 =
    (List.range' 1 31) ++ List.replicate 11 0 := by decide
example : preformat_days 2024 7 =
    [0] ++ (List.range' 1 31) ++ List.replicate 10 0 := by decide
example : preformat_days 2024 6 =
    List.replicate 6 0 ++ (List.range' 1 30) ++ List.replicate 6 0 := by decide
example : preformat_days 2024 3 =
    List.replicate 5 0 ++ (List.range' 1 31) ++ List.replicate 6 0 := by decide
example : (last_day_in_month 2024 2).day = 29 := by decide
example : (last_day_in_month 2023 2).day = 28 := by decide
example : date_parse_from_str "2024/01/01" = some ⟨2024, 1, 1⟩ := by decide
example : date_parse_from_str "2024/02/30" = none := by decide
-- unsigned %Y stops after four digits; the literal slash then fails
example : date_parse_from_str "20240/01/01" = none := by decide
-- %m stops after two digits; the literal slash then fails
example : date_parse_from_str "2024/011/1" = none := by decide
-- a signed year takes an unbounded digit run
example : date_parse_from_str "+2024/01/01" = some ⟨2024, 1, 1⟩ := by decide
example : date_parse_from_str "-2024/03/01" = some ⟨-2024, 3, 1⟩ := by decide
-- whitespace before a numeric field is trimmed
example : date_parse_from_str " 2024/01/01" = some ⟨2024, 1, 1⟩ := by decide
example : date_parse_from_str "2024/ 1/ 1" = some ⟨2024, 1, 1⟩ := by decide
-- trailing input is rejected
example : date_parse_from_str "2024/01/01 " = none := by decide
-- the resolved year must lie in chrono's representable range
example : date_parse_from_str "-999999/01/01" = none := by decide
example : beforeFirstComma "2024/01/01,NewYear" = "2024/01/01" := by decide

/-- C1: the claim that every successful `parse_months` output is
non-decreasing and duplicate-free fails on the code.  On
"1-6,2-3,2-5" the middle range is swallowed whole, `extract_month`
returns its clipped end `3`, the running offset regresses from 6 to
3, and months 4 and 5 are emitted a second time. -/
theorem C1_parse_months_emits_duplicates :
    parse_months "1-6,2-3,2-5" = .ok [1, 2, 3, 4, 5, 6, 4, 5] ∧
    ¬ List.Pairwise (· ≤ ·) [1, 2, 3, 4, 5, 6, 4, 5] ∧
    ¬ List.Nodup [1, 2, 3, 4, 5, 6, 4, 5] := by
  refine ⟨by decide, by decide, by decide⟩

/-- C2: a single-month input "s" with `1 ≤ s ≤ 12` parses to exactly
`[s]`, and a range input "s-e" with `1 ≤ s < e ≤ 12` parses to the
ascending enumeration `[s, s+1, ..., e]`. -/
theorem C2_single_segment (s e : Nat) :
    (1 ≤ s → s ≤ 12 → parse_months (toString s) = .ok [s]) ∧
    (1 ≤ s → s < e → e ≤ 12 →
      parse_months (toString s ++ "-" ++ toString e) =
        .ok (List.range' s (e - s + 1))) := by
  constructor
  · intro h1 h2
    interval_cases s <;> decide
  · intro h1 h2 h3
    have h4 : s ≤ 12 := by omega
    interval_cases s <;> interval_cases e <;> decide

/-- Witness for C2 at `s = 3`, `e = 7`. -/
theorem C2_single_segment_witness :
    parse_months (toString 3) = .ok [3] ∧
    parse_months (toString 3 ++ "-" ++ toString 7) =
      .ok (List.range' 3 (7 - 3 + 1)) :=
  ⟨(C2_single_segment 3 7).1 (by decide) (by decide),
   (C2_single_segment 3 7).2 (by decide) (by decide) (by decide)⟩

/-- C4 as stated is false: with no month selection and the whole-year
flag unset but an explicit year 2024 given (today being 2025-10), the
code selects all twelve months of 2024, not only the current month. -/
theorem C4_counterexample :
    run_selection ⟨none, some 2024, false⟩ 2025 10 =
      (2024, [1, 2, 3, 4, 5, 6, 7, 8, 9, 10, 11, 12]) ∧
    (run_selection ⟨none, some 2024, false⟩ 2025 10).2 ≠ [10] := by
  refine ⟨by decide, by decide⟩

/-- C4 amended: when no month selection is given, the whole-year flag
is unset, and additionally no explicit year is given, exactly the
current month of the current year is displayed; and whenever no year
is given the current year is used, whatever the other options. -/
theorem C4_amended (c : Config) (ty : Int) (tm : Nat) :
    (c.months = none → c.cur_year = false → c.year = none →
      run_selection c ty tm = (ty, [tm])) ∧
    (c.year = none → (run_selection c ty tm).1 = ty) := by
  obtain ⟨ms, yr, cy⟩ := c
  constructor
  · rintro rfl rfl rfl
    rfl
  · rintro rfl
    simp [run_selection]

/-- Witness for C4 amended: no options at all, today 2025-10. -/
theorem C4_amended_witness :
    run_selection ⟨none, none, false⟩ 2025 10 = (2025, [10]) ∧
    (run_selection ⟨none, none, false⟩ 2025 10).1 = 2025 :=
  ⟨(C4_amended ⟨none, none, false⟩ 2025 10).1 rfl rfl rfl,
   (C4_amended ⟨none, none, false⟩ 2025 10).2 rfl⟩

/-- C5 as stated is false: a line with no comma is not skipped; its
whole text is the value of `split(",").next()`, and when it parses as
a date it is added to the index. -/
theorem C5_counterexample :
    holiday_lines ["2024/01/01"] = [⟨2024, 1, 1⟩] ∧
    ("2024/01/01" : String).toList.all (fun c => c != ',') = true := by
  refine ⟨by decide, by decide⟩

/-- C5 amended: for every line of the holiday file, the text before
the first comma — the whole line when it contains no comma — is parsed
as a `YYYY/MM/DD` date and added on success; a line whose date text
does not parse is silently skipped and contributes nothing; no line
ever causes an error. -/
theorem C5_amended (line : String) (rest : List String) :
    (∀ d, date_parse_from_str (beforeFirstComma line) = some d →
      holiday_lines (line :: rest) = d :: holiday_lines rest) ∧
    (date_parse_from_str (beforeFirstComma line) = none →
      holiday_lines (line :: rest) = holiday_lines rest) := by
  constructor
  · intro d hd
    simp [holiday_lines, hd]
  · intro hd
    simp [holiday_lines, hd]

/-- Witness for C5 amended: a dated line with a name field, and an
unparsable line. -/
theorem C5_amended_witness :
    holiday_lines ["2024/01/01,NewYear"] = [⟨2024, 1, 1⟩] ∧
    holiday_lines ["not a date", "2024/01/01,NewYear"] =
      holiday_lines ["2024/01/01,NewYear"] :=
  ⟨(C5_amended "2024/01/01,NewYear" []).1 ⟨2024, 1, 1⟩ (by decide),
   (C5_amended "not a date" ["2024/01/01,NewYear"]).2 (by decide)⟩

/-- C9: for a non-zero day cell, holiday styling takes precedence
over weekend styling in the last column, the first column is always
holiday-styled whatever the index holds, and the today emphasis is
layered on top of whichever colour applies, independently of it. -/
theorem C9_style_precedence (year : Int) (month : Nat) (today : Date)
    (h : HolidayInfo) (d : Nat) (_hd : d ≠ 0) :
    (h.is_holiday year month d = true →
      (cell_style year month today h 6 d).color = CellColor.red) ∧
    (cell_style year month today h 0 d).color = CellColor.red ∧
    (∀ i, (cell_style year month today h i d).reversed =
      (year == today.year && month == today.month && d == today.day)) := by
  refine ⟨?_, ?_, ?_⟩
  · intro hhol
    simp [cell_style, hhol]
  · simp [cell_style]
  · intro i
    simp [cell_style]

/-- Witness for C9: June 6 styled in column 6 with June 6 a holiday. -/
theorem C9_style_precedence_witness :
    (cell_style 2024 1 ⟨2024, 1, 6⟩ (build_holidays [⟨2024, 1, 6⟩]) 6 6).color =
      CellColor.red :=
  (C9_style_precedence 2024 1 ⟨2024, 1, 6⟩ (build_holidays [⟨2024, 1, 6⟩]) 6
    (by decide)).1 (by decide)

/-- Masks of a fold of `add` are untouched at a `(year, month)` key
that none of the folded dates carries. -/
theorem foldl_add_info (dates : List Date) (h : HolidayInfo) (y : Int)
    (m : Nat) (hn : ∀ dt ∈ dates, ¬(y = dt.year ∧ m = dt.month)) :
    (dates.foldl HolidayInfo.add h).info y m = h.info y m := by
  induction dates generalizing h with
  | nil => rfl
  | cons dt tl ih =>
    rw [List.foldl_cons, ih _ (fun x hx => hn x (by simp [hx]))]
    have h1 := hn dt (by simp)
    simp only [HolidayInfo.add]
    rw [if_neg h1]

/-- C7: building the holiday index is idempotent with respect to
repeated dates; built from a list holding 2024-01-01 twice, January 1
is a holiday and January 2 is not; and a lookup at a `(year, month)`
key never inserted answers `false` without error. -/
theorem C7_holiday_index :
    (∀ (h : HolidayInfo) (dt : Date) (y : Int) (m d : Nat),
      ((h.add dt).add dt).is_holiday y m d = (h.add dt).is_holiday y m d) ∧
    ((build_holidays [⟨2024, 1, 1⟩, ⟨2024, 1, 1⟩]).is_holiday 2024 1 1 = true ∧
     (build_holidays [⟨2024, 1, 1⟩, ⟨2024, 1, 1⟩]).is_holiday 2024 1 2 = false) ∧
    (∀ (dates : List Date) (y : Int) (m : Nat),
      (∀ dt ∈ dates, ¬(y = dt.year ∧ m = dt.month)) →
      ∀ d, (build_holidays dates).is_holiday y m d = false) := by
  refine ⟨?_, ⟨by decide, by decide⟩, ?_⟩
  · intro h dt y m d
    by_cases hp : y = dt.year ∧ m = dt.month
    · simp [HolidayInfo.add, HolidayInfo.is_holiday, hp, Nat.or_assoc]
    · simp [HolidayInfo.add, HolidayInfo.is_holiday, hp]
  · intro dates y m hn d
    have h0 : (List.foldl HolidayInfo.add HolidayInfo.new dates).info y m = 0 :=
      foldl_add_info dates HolidayInfo.new y m hn
    simp [HolidayInfo.is_holiday, build_holidays, h0]

/-- Witness for C7: idempotence observed at the inserted date, and an
absent-key lookup on a concretely built index. -/
theorem C7_holiday_index_witness :
    ((HolidayInfo.new.add ⟨2024, 1, 1⟩).add ⟨2024, 1, 1⟩).is_holiday 2024 1 1 =
      (HolidayInfo.new.add ⟨2024, 1, 1⟩).is_holiday 2024 1 1 ∧
    (build_holidays [⟨2024, 1, 1⟩]).is_holiday 2024 2 1 = false :=
  ⟨C7_holiday_index.1 HolidayInfo.new ⟨2024, 1, 1⟩ 2024 1 1,
   C7_holiday_index.2.2 [⟨2024, 1, 1⟩] 2024 2 (by decide) 1⟩

/-- C6: the four canonical invalid inputs each fail with an
identifiable error, three distinct kinds among them, and for every
malformed token the checks run in the fixed order: segment format
first, then the start month's bounds, then the end month's bounds,
then the range order. -/
theorem C6_error_kinds :
    (parse_months "0" = .error "invalid month: \"0\"" ∧
     parse_months "13" = .error "invalid month: \"13\"" ∧
     parse_months "5-3" = .error
       "First month in range (5) must be lower than second month (3)" ∧
     parse_months "abc" = .error "illegal list value: \"abc\"") ∧
    (∀ ele, parse_range ele = none →
      parse_segment ele =
        .error ("illegal list value: \"" ++ String.mk ele ++ "\"")) ∧
    (∀ ele v eo, parse_range ele = some (some v, eo) →
      ¬(1 ≤ v ∧ v ≤ 12) →
      parse_segment ele = .error ("invalid month: \"" ++ toString v ++ "\"")) ∧
    (∀ ele v e, parse_range ele = some (some v, some e) →
      1 ≤ v → v ≤ 12 → ¬(1 ≤ e ∧ e ≤ 12) →
      parse_segment ele = .error ("invalid month: \"" ++ toString e ++ "\"")) ∧
    (∀ ele v e, parse_range ele = some (some v, some e) →
      1 ≤ v → v ≤ 12 → 1 ≤ e → e ≤ 12 → e ≤ v →
      parse_segment ele =
        .error ("First month in range (" ++ toString v ++
          ") must be lower than second month (" ++ toString e ++ ")")) := by
  refine ⟨⟨by decide, by decide, by decide, by decide⟩, ?_, ?_, ?_, ?_⟩
  · intro ele h
    simp [parse_segment, h]
  · intro ele v eo h hv
    simp [parse_segment, h, hv]
  · intro ele v e h hv1 hv2 he
    simp [parse_segment, h, And.intro hv1 hv2, he]
  · intro ele v e h hv1 hv2 he1 he2 hve
    have hin : 1 ≤ e ∧ e ≤ 12 := ⟨he1, he2⟩
    simp [parse_segment, h, And.intro hv1 hv2, hin, hve]

/-- Witness for C6's ordering conjuncts, at "99-0": the start month is
out of bounds, so the reported error is the invalid-month one for 99
even though the end month is also out of bounds and out of order. -/
theorem C6_error_kinds_witness :
    parse_segment ("99-0".toList) = .error "invalid month: \"99\"" :=
  C6_error_kinds.2.2.1 ("99-0".toList) 99 (some 0) (by decide) (by decide)

/-- Splitting a comma-free character list yields that list as the
single field. -/
theorem splitOnComma_no_comma :
    ∀ cs : List Char, (∀ c ∈ cs, c ≠ ',') → splitOnComma cs = [cs]
  | [], _ => rfl
  | c :: rest, h => by
    have hc : c ≠ ',' := h c (by simp)
    have ih := splitOnComma_no_comma rest (fun x hx => h x (by simp [hx]))
    simp [splitOnComma, hc, ih]

/-- C10: an all-digit segment whose value does not fit in a 64-bit
`usize` takes the format-failure path: the overflow error from the
numeric parse inside the regex match is folded into the
"illegal list value" message, not the invalid-month one. -/
theorem C10_overflow_is_format_error (cs : List Char) (hne : cs ≠ [])
    (hdig : ∀ c ∈ cs, c.isDigit = true) (hbig : 2 ^ 64 ≤ digitsToNat cs) :
    parse_months (String.mk cs) =
      .error ("illegal list value: \"" ++ String.mk cs ++ "\"") := by
  have hnc : ∀ c ∈ cs, c ≠ ',' := by
    intro c hc he
    have hd := hdig c hc
    rw [he] at hd
    simp at hd
  have hsplit : splitOnComma cs = [cs] := splitOnComma_no_comma cs hnc
  have htake : cs.takeWhile Char.isDigit = cs :=
    List.takeWhile_eq_self_iff.mpr hdig
  have hdrop : cs.dropWhile Char.isDigit = [] :=
    List.dropWhile_eq_nil_iff.mpr hdig
  have hcap : segCaptures cs = some (cs, none) := by
    unfold segCaptures
    simp [htake, hdrop, hne]
  have hus : parseUsize cs = none := by
    unfold parseUsize
    rw [if_neg (by omega)]
  have hpr : parse_range cs = none := by
    simp [parse_range, hcap, hus]
  simp [parse_months, hsplit, parse_segments, parse_segment, hpr]

/-- Witness for C10 at `2 ^ 64`, one past the largest `usize`. -/
theorem C10_overflow_witness :
    parse_months "18446744073709551616" =
      .error "illegal list value: \"18446744073709551616\"" :=
  C10_overflow_is_format_error ("18446744073709551616".toList)
    (by decide) (by decide) (by decide)

/-- Splitting always yields at least one field. -/
theorem splitOnComma_ne_nil (cs : List Char) : splitOnComma cs ≠ [] := by
  cases cs with
  | nil => simp [splitOnComma]
  | cons c rest =>
    simp only [splitOnComma]
    split
    · simp
    · split <;> simp

/-- A successfully validated token denotes a zero-based half-open
range whose start lies strictly below its end, which is at most 12. -/
theorem parse_segment_valid {ele : List Char} {r : Nat × Nat}
    (h : parse_segment ele = .ok r) : r.1 < r.2 ∧ r.2 ≤ 12 := by
  unfold parse_segment at h
  repeat' split at h
  all_goals first
    | exact Except.noConfusion h
    | (injection h with h2; subst h2; omega)

/-- Token-list validation returns one range per token. -/
theorem parse_segments_length :
    ∀ {l : List (List Char)} {rs : List (Nat × Nat)},
      parse_segments l = .ok rs → rs.length = l.length := by
  intro l
  induction l with
  | nil =>
    intro rs h
    cases h
    rfl
  | cons x xs ih =>
    intro rs h
    unfold parse_segments at h
    split at h
    · exact Except.noConfusion h
    · split at h
      · exact Except.noConfusion h
      · cases h
        simp [ih ‹_›]

/-- Every range produced by token-list validation is valid. -/
theorem parse_segments_all :
    ∀ {l : List (List Char)} {rs : List (Nat × Nat)},
      parse_segments l = .ok rs → ∀ r ∈ rs, r.1 < r.2 ∧ r.2 ≤ 12 := by
  intro l
  induction l with
  | nil =>
    intro rs h
    cases h
    simp
  | cons x xs ih =>
    intro rs h
    unfold parse_segments at h
    split at h
    · exact Except.noConfusion h
    · next r hr =>
      split at h
      · exact Except.noConfusion h
      · cases h
        intro q hq
        rcases List.mem_cons.mp hq with hq | hq
        · subst hq
          exact parse_segment_valid hr
        · exact ih ‹_› q hq

/-- C8: a successful `parse_months` never returns the empty month
list: after sorting, the first validated range is clipped against the
initial offset 0 and its length, at least one, survives intact. -/
theorem C8_nonempty (value : String) (months : List Nat)
    (h : parse_months value = .ok months) : months ≠ [] := by
  unfold parse_months at h
  split at h
  · exact Except.noConfusion h
  · next ranges hranges =>
    cases h
    have hperm := List.perm_insertionSort rangeLE ranges
    have hlen : ranges.length = (splitOnComma value.toList).length :=
      parse_segments_length hranges
    have hrne : ranges ≠ [] := by
      intro hnil
      apply splitOnComma_ne_nil value.toList
      have := hlen
      rw [hnil] at this
      exact List.length_eq_zero.mp this.symm
    have hsne : sort_month_range_list ranges ≠ [] := by
      intro hnil
      apply hrne
      have := hperm.length_eq
      rw [sort_month_range_list] at hnil
      rw [hnil] at this
      exact List.length_eq_zero.mp this.symm
    obtain ⟨r, rest, hcons⟩ := List.exists_cons_of_ne_nil hsne
    have hrmem : r ∈ ranges := by
      refine hperm.mem_iff.mp ?_
      rw [sort_month_range_list] at hcons
      rw [hcons]
      simp
    have hrv : r.1 < r.2 ∧ r.2 ≤ 12 := parse_segments_all hranges r hrmem
    rw [hcons]
    rw [extract_all]
    have hm12 : m12.length = 12 := by decide
    have hmin : min m12.length r.2 = r.2 := by omega
    have hecond : ¬ (max 0 r.1 > min m12.length r.2) := by omega
    simp only [extract_month, hecond, if_false]
    intro hnil
    have hl := congrArg List.length hnil
    simp [List.length_take, List.length_drop, hm12] at hl
    omega

/-- Witness for C8 at the single-month input "7". -/
theorem C8_nonempty_witness : ([7] : List Nat) ≠ [] :=
  C8_nonempty "7" [7] (by decide)

/-- The day field of `last_day_in_month` is the Gregorian month
length, leap years included. -/
theorem last_day_day (year : Int) (month : Nat) (h1 : 1 ≤ month)
    (h2 : month ≤ 12) :
    (last_day_in_month year month).day = daysInMonth year month := by
  by_cases hm : month = 12
  · subst hm
    simp [last_day_in_month, predDate, daysInMonth]
  · have hgt : month + 1 > 1 := by omega
    simp [last_day_in_month, hm, predDate, hgt]

/-- A Gregorian month has between 28 and 31 days. -/
theorem daysInMonth_bounds (y : Int) (m : Nat) :
    1 ≤ daysInMonth y m ∧ daysInMonth y m ≤ 31 := by
  unfold daysInMonth
  repeat' split
  all_goals omega

/-- C3: for every year `1..=9999` and month `1..=12` the day grid has
exactly 42 cells; the non-zero cells are exactly the Gregorian month
length many, they hold `1..=last_day` contiguously, and they start at
the index given by the weekday of the first of the month, Sunday
being 0 — equivalently, the leading zero run has that weekday's
length. -/
theorem C3_day_grid (year : Int) (month : Nat) (_hy1 : 1 ≤ year)
    (_hy2 : year ≤ 9999) (hm1 : 1 ≤ month) (hm2 : month ≤ 12) :
    preformat_days year month =
      List.replicate (weekdaySunday0 year month 1) 0 ++
        List.range' 1 (daysInMonth year month) ++
        List.replicate
          (42 - weekdaySunday0 year month 1 - daysInMonth year month) 0 ∧
    (preformat_days year month).length = 42 ∧
    (preformat_days year month).countP (fun c => c != 0) =
      daysInMonth year month ∧
    weekdaySunday0 year month 1 < 7 := by
  have hw : weekdaySunday0 year month 1 < 7 := Nat.mod_lt _ (by decide)
  have hd := daysInMonth_bounds year month
  have hlast := last_day_day year month hm1 hm2
  have hstruct : preformat_days year month =
      List.replicate (weekdaySunday0 year month 1) 0 ++
        List.range' 1 (daysInMonth year month) ++
        List.replicate
          (42 - weekdaySunday0 year month 1 - daysInMonth year month) 0 := by
    simp only [preformat_days, splice, hlast]
    rw [List.take_replicate, List.drop_replicate]
    have h1 : min (weekdaySunday0 year month 1) (7 * 6) =
        weekdaySunday0 year month 1 := by omega
    have h2 : 7 * 6 - (weekdaySunday0 year month 1 + daysInMonth year month) =
        42 - weekdaySunday0 year month 1 - daysInMonth year month := by omega
    rw [h1, h2]
  refine ⟨hstruct, ?_, ?_, hw⟩
  · rw [hstruct]
    simp [List.length_append, List.length_replicate, List.length_range']
    omega
  · rw [hstruct]
    have hr : (List.range' 1 (daysInMonth year month)).countP (fun c => c != 0) =
        (List.range' 1 (daysInMonth year month)).length := by
      rw [List.countP_eq_length]
      intro a ha
      obtain ⟨i, hi, rfl⟩ := List.mem_range'.mp ha
      simp
    simp [List.countP_append, List.countP_replicate, hr, List.length_range']

/-- Witness for C3 at December 2024, which starts on a Sunday and has
31 days. -/
theorem C3_day_grid_witness :
    preformat_days 2024 12 =
      List.replicate (weekdaySunday0 2024 12 1) 0 ++
        List.range' 1 (daysInMonth 2024 12) ++
        List.replicate (42 - weekdaySunday0 2024 12 1 - daysInMonth 2024 12) 0 ∧
    (preformat_days 2024 12).length = 42 ∧
    (preformat_days 2024 12).countP (fun c => c != 0) = daysInMonth 2024 12 ∧
    weekdaySunday0 2024 12 1 < 7 :=
  C3_day_grid 2024 12 (by decide) (by decide) (by decide) (by decide)

end Calp
